import Mathlib

/-!
# The example authorization server and the client-secret generator

A shallow embedding of `example/server/server.go` and `id_secret_gen/main.go`.

* The per-browser session (package `go-session/session`) is a key-value map that
  returns what was stored: `Set` and `Delete` act on the map, `Start` and `Save`
  report success or an error taken from a `Faults` record supplied by the
  environment.
* Dynamic values kept in the session (`interface{}`) are a sum type, so that a
  failing type assertion is representable; a handler that panics returns `none`.
* The OAuth2 library server (`srv`) is a parameter: its request validation, its
  error redirection, its code issuing and its bearer-token validation are fields
  of `Server`.
* Request logging (`dumpRequest`, the middlewares) has no effect on the values
  modelled here and is left out.
-/

namespace OAuth2

/-! ## Values of `net/url` and `net/http` -/

/-- A non-nil `url.Values` map: keys with their value lists. -/
abbrev Values := List (String × List String)

/-- The first value stored under `key`, or the empty string, as `url.Values.Get` and
`Request.FormValue` read it. -/
def valuesGet (v : Values) (key : String) : String :=
  match v.lookup key with
  | some (x :: _) => x
  | _ => ""

/-- An inbound `*http.Request`, as far as the handlers look at it: the `Form` field
(`none` is the nil map of a request that was not parsed yet) and the parameters the
request itself carries in its query string and body, which `ParseForm` reads. -/
structure Request where
  Form : Option Values
  params : Values
  deriving DecidableEq, Repr

/-- The method `ParseForm` of `http.Request`: fills a nil `Form` from the request's own
parameters and leaves a non-nil `Form` alone. -/
def Request.ParseForm (r : Request) : Request :=
  match r.Form with
  | some _ => r
  | none => { r with Form := some r.params }

/-- The method `FormValue` of `http.Request` (what `ctx.FormValue` of echo calls): parses
when `Form` is nil, then reads the first value under the key. -/
def Request.FormValue (r : Request) (key : String) : String :=
  match r.ParseForm.Form with
  | some f => valuesGet f key
  | none => ""

def StatusOK : Nat := 200
def StatusFound : Nat := 302
def StatusBadRequest : Nat := 400
def StatusUnauthorized : Nat := 401

/-- The struct `UserInfoJson`; the field `Sub` is serialised under the JSON key `sub`. -/
structure UserInfoJson where
  Sub : String
  Name : String
  Password : String
  Login : String
  Email : String
  Attributes : List (String × List String)
  Role : String
  deriving DecidableEq, Repr

/-- The body of a response. -/
inductive Body
  | empty
  | text (s : String)
  | html (s : String)
  | json (u : UserInfoJson)
  | jsonString (s : String)
  deriving DecidableEq, Repr

/-- The response written for a request: status, `Location` header, body. -/
structure Response where
  status : Nat
  location : Option String
  body : Body
  deriving DecidableEq, Repr

/-- The call `ctx.Redirect(code, url)`. -/
def ctxRedirect (code : Nat) (url : String) : Response :=
  { status := code, location := some url, body := Body.empty }

/-- The call `ctx.String(code, s)`. -/
def ctxString (code : Nat) (s : String) : Response :=
  { status := code, location := none, body := Body.text s }

/-- The call `ctx.HTML(code, html)`. -/
def ctxHTML (code : Nat) (html : String) : Response :=
  { status := code, location := none, body := Body.html html }

/-! ## The session -/

def SessionKeyReturnUri : String := "ReturnUri"
def SessionKeyLoggedInUserID : String := "LoggedInUserID"

/-- A dynamically typed session value: a `url.Values` (possibly the nil map), a
`string`, or a value of some other type. -/
inductive Value
  | form (f : Option Values)
  | str (s : String)
  | other (tag : Nat)
  deriving DecidableEq, Repr

/-- The session store of one browser session: a key-value map. -/
def Session : Type := String → Option Value

/-- The session nothing was stored in. -/
def Session.empty : Session := fun _ => none

/-- The call `stor.Get(key)`: the value and whether it is there. -/
def Session.Get (s : Session) (key : String) : Option Value := s key

/-- The call `stor.Set(key, v)`. -/
def Session.Set (s : Session) (key : String) (v : Value) : Session :=
  fun k => if k = key then some v else s k

/-- The call `stor.Delete(key)`. -/
def Session.Delete (s : Session) (key : String) : Session :=
  fun k => if k = key then none else s k

/-- What the session operations of one handler invocation report: the error of
`session.Start` and the error of `stor.Save`, `none` for success. -/
structure Faults where
  start : Option String
  save : Option String
  deriving DecidableEq, Repr

/-- The session operations a handler performed, in order. -/
inductive Call
  | start
  | get (key : String)
  | set (key : String) (v : Value)
  | delete (key : String)
  | save
  deriving DecidableEq, Repr

/-! ## The handlers of `server.go` -/

/-- The function registered with `SetPasswordAuthorizationHandler`: the user ID and the
error it returns. -/
def passwordAuthorizationHandler (_clientID username password : String) :
    String × Option String :=
  if username = "test" ∧ password = "test" then
    ("test", none)
  else
    ("", some "invalid username or password")

/-- The result of `userAuthorizeHandler`: the session and the request as it leaves them,
what it wrote to the response writer, and the returned `userID` and `err`. -/
structure UserAuth where
  session : Session
  request : Request
  written : Option Response
  userID : String
  err : Option String
  calls : List Call

/-- The function `userAuthorizeHandler(w, r)`; `none` is the panic of the type assertion
`uid.(string)`. The results of both `stor.Save()` calls are dropped, as in the source. -/
def userAuthorizeHandler (io : Faults) (s : Session) (r : Request) : Option UserAuth :=
  match io.start with
  | some e =>
    some { session := s, request := r, written := none, userID := "", err := some e,
           calls := [Call.start] }
  | none =>
    match s.Get SessionKeyLoggedInUserID with
    | none =>
      let r1 := if r.Form.isNone then r.ParseForm else r
      let s1 := s.Set SessionKeyReturnUri (Value.form r1.Form)
      some { session := s1, request := r1,
             written := some { status := StatusFound, location := some "/login",
                               body := Body.empty },
             userID := "", err := none,
             calls := [Call.start, Call.get SessionKeyLoggedInUserID,
                       Call.set SessionKeyReturnUri (Value.form r1.Form), Call.save] }
    | some (Value.str uid) =>
      some { session := s.Delete SessionKeyLoggedInUserID, request := r, written := none,
             userID := uid, err := none,
             calls := [Call.start, Call.get SessionKeyLoggedInUserID,
                       Call.delete SessionKeyLoggedInUserID, Call.save] }
    | some _ => none

/-- How a call into the library ends: it returns an error having written nothing, or
it writes a response and returns nil. -/
inductive LibResult
  | failed (e : String)
  | responded (resp : Response)
  deriving DecidableEq, Repr

/-- A bearer token as the user-info endpoint reads it. -/
structure Token where
  UserID : String
  deriving DecidableEq, Repr

/-- The method `GetUserID` of a token. -/
def Token.GetUserID (t : Token) : String := t.UserID

/-- The library server `srv`, a parameter of the program.

* `parsesForm`: whether request validation has read the request through `FormValue`
  (which parses a nil `Form`) before the user-authorization handler runs;
* `validate`: `ValidationAuthorizeRequest`, `none` when the request is accepted;
* `onUserErr`: what the library does with an error of the user-authorization handler;
* `grant`: issuing the code for an authorized user and redirecting to the client;
* `ValidationBearerToken`: the token of a resource request, or the rejection. -/
structure Server where
  parsesForm : Bool
  validate : Request → Option LibResult
  onUserErr : Request → String → LibResult
  grant : Request → String → LibResult
  ValidationBearerToken : Request → Except String Token

/-- The request as the user-authorization handler receives it from the library. -/
def Server.passes (srv : Server) (r : Request) : Request :=
  if srv.parsesForm then r.ParseForm else r

/-- The result of `srv.HandleAuthorizeRequest`. -/
structure LibOutcome where
  session : Session
  written : Option Response
  err : Option String
  user : Option UserAuth

/-- Completes a library call: the response written and the error returned. -/
def LibOutcome.ofResult (s : Session) (user : Option UserAuth) : LibResult → LibOutcome
  | LibResult.failed e => { session := s, written := none, err := some e, user := user }
  | LibResult.responded resp =>
    { session := s, written := some resp, err := none, user := user }

/-- The method `srv.HandleAuthorizeRequest(w, r)` with `userAuthorizeHandler` registered:
validation, then the user-authorization handler on the same request, then (for a
non-empty user ID) the grant. It touches the session through the handler only. -/
def Server.HandleAuthorizeRequest (srv : Server) (ioU : Faults) (s : Session)
    (r : Request) : Option LibOutcome :=
  let r0 := srv.passes r
  match srv.validate r0 with
  | some res => some (LibOutcome.ofResult s none res)
  | none =>
    match userAuthorizeHandler ioU s r0 with
    | none => none
    | some ua =>
      match ua.err with
      | some e => some (LibOutcome.ofResult ua.session (some ua) (srv.onUserErr ua.request e))
      | none =>
        if ua.userID = "" then
          some { session := ua.session, written := ua.written, err := none, user := some ua }
        else
          some (LibOutcome.ofResult ua.session (some ua) (srv.grant ua.request ua.userID))

/-- The result of an echo handler: the session as it leaves it, the response it
wrote (`none` when it wrote nothing), the error it returns, its session calls, and the
result of the user-authorization handler when the library called it for this request. -/
structure Outcome where
  session : Session
  written : Option Response
  err : Option String
  calls : List Call
  user : Option UserAuth

/-- The state of the `/oauth/authorize` handler when it reaches the library call. -/
inductive Prepared
  | aborted (out : Outcome)
  | ready (s : Session) (request : Request) (calls : List Call)

/-- The `/oauth/authorize` handler up to `srv.HandleAuthorizeRequest` (lines 131-147):
start the session, take the form stored under `ReturnUri` (nil when there is none) as
the form of the request, delete the entry and save. `none` is the panic of the type
assertion `v.(url.Values)`. -/
def authorizePrepare (io : Faults) (s : Session) (r : Request) : Option Prepared :=
  match io.start with
  | some e =>
    some (Prepared.aborted { session := s, written := none, err := some e,
                             calls := [Call.start], user := none })
  | none =>
    let restored : Option (Option Values) :=
      match s.Get SessionKeyReturnUri with
      | none => some none
      | some (Value.form f) => some f
      | some _ => none
    match restored with
    | none => none
    | some form =>
      let request := { r with Form := form }
      let s1 := s.Delete SessionKeyReturnUri
      let calls := [Call.start, Call.get SessionKeyReturnUri,
                    Call.delete SessionKeyReturnUri, Call.save]
      match io.save with
      | some e =>
        some (Prepared.aborted { session := s1, written := none, err := some e,
                                 calls := calls, user := none })
      | none => some (Prepared.ready s1 request calls)

/-- The end of the `/oauth/authorize` handler (lines 149-154): an error of the library
call is answered with `ctx.String(http.StatusBadRequest, err.Error())`. -/
def authorizeFinish (calls : List Call) (lib : LibOutcome) : Outcome :=
  match lib.err with
  | some e =>
    { session := lib.session, written := some (ctxString StatusBadRequest e), err := none,
      calls := calls ++ (lib.user.map (fun u => u.calls)).getD [], user := lib.user }
  | none =>
    { session := lib.session, written := lib.written, err := none,
      calls := calls ++ (lib.user.map (fun u => u.calls)).getD [], user := lib.user }

/-- The `/oauth/authorize` handler; `io` are the session faults of the handler itself,
`ioU` those of the user-authorization handler the library calls. -/
def authorizeHandler (srv : Server) (io ioU : Faults) (s : Session) (r : Request) :
    Option Outcome :=
  match authorizePrepare io s r with
  | none => none
  | some (Prepared.aborted out) => some out
  | some (Prepared.ready s1 request calls) =>
    match srv.HandleAuthorizeRequest ioU s1 request with
    | none => none
    | some lib => some (authorizeFinish calls lib)

/-- The request the `/oauth/authorize` handler hands to `srv.HandleAuthorizeRequest`,
when it gets that far. -/
def handedRequest (io : Faults) (s : Session) (r : Request) : Option Request :=
  match authorizePrepare io s r with
  | some (Prepared.ready _ request _) => some request
  | _ => none

/-- The `/oauth/userinfo` handler. -/
def userinfoHandler (srv : Server) (r : Request) : Response :=
  match srv.ValidationBearerToken r with
  | Except.error e =>
    { status := StatusBadRequest, location := none, body := Body.jsonString e }
  | Except.ok token =>
    let uid := token.GetUserID
    let userinfo : UserInfoJson :=
      { Sub := uid, Name := "Marcille Hu", Password := "", Login := "marcille",
        Email := "marcille.hu@gmail.com", Attributes := [], Role := "Admin" }
    { status := StatusOK, location := none, body := Body.json userinfo }

/-- The function `loginHandler(ctx)`. -/
def loginHandler (io : Faults) (s : Session) (r : Request) : Outcome :=
  match io.start with
  | some e =>
    { session := s, written := none, err := some e, calls := [Call.start], user := none }
  | none =>
    let username := r.FormValue "username"
    let password := r.FormValue "password"
    if username = "test" ∧ password = "test" then
      let s1 := s.Set SessionKeyLoggedInUserID (Value.str username)
      let calls := [Call.start, Call.set SessionKeyLoggedInUserID (Value.str username),
                    Call.save]
      match io.save with
      | some e =>
        { session := s1, written := none, err := some e, calls := calls, user := none }
      | none =>
        { session := s1, written := some (ctxRedirect StatusFound "/auth"), err := none,
          calls := calls, user := none }
    else
      { session := s,
        written := some (ctxString StatusUnauthorized "Invalid username or password"),
        err := none, calls := [Call.start], user := none }

/-- The function `authHandler(ctx)`; `static` reads a file of the embedded file system. -/
def authHandler (static : String → Except String String) (io : Faults) (s : Session) :
    Outcome :=
  match io.start with
  | some e =>
    { session := s, written := none, err := some e, calls := [Call.start], user := none }
  | none =>
    match s.Get SessionKeyLoggedInUserID with
    | none =>
      { session := s, written := some (ctxRedirect StatusFound "/login"), err := none,
        calls := [Call.start, Call.get SessionKeyLoggedInUserID], user := none }
    | some _ =>
      match static "static/auth.html" with
      | Except.error e =>
        { session := s, written := none, err := some e,
          calls := [Call.start, Call.get SessionKeyLoggedInUserID], user := none }
      | Except.ok content =>
        { session := s, written := some (ctxHTML StatusOK content), err := none,
          calls := [Call.start, Call.get SessionKeyLoggedInUserID], user := none }

/-- The form `userAuthorizeHandler` stores for a request: its `Form` when that is set,
otherwise the parameters `ParseForm` reads from the request. -/
def Request.effectiveForm (r : Request) : Values :=
  match r.Form with
  | some f => f
  | none => r.params

/-! ## Runs of the session -/

/-- One request against the session: which handler serves it and with which inputs. -/
inductive Action
  | authorize (srv : Server) (io ioU : Faults) (r : Request)
  | userAuthorize (io : Faults) (r : Request)
  | login (io : Faults) (r : Request)
  | auth (static : String → Except String String) (io : Faults)

/-- The session after one request; `none` when the handler panics. -/
def step (s : Session) : Action → Option Session
  | Action.authorize srv io ioU r => (authorizeHandler srv io ioU s r).map (fun o => o.session)
  | Action.userAuthorize io r => (userAuthorizeHandler io s r).map (fun o => o.session)
  | Action.login io r => some (loginHandler io s r).session
  | Action.auth static io => some (authHandler static io s).session

/-- The session after a sequence of requests; `none` when one of them panics. -/
def run (s : Session) : List Action → Option Session
  | [] => some s
  | a :: rest =>
    match step s a with
    | none => none
    | some s1 => run s1 rest

/-- The typing discipline of the two session keys: `ReturnUri` holds a `url.Values`,
`LoggedInUserID` holds the string `test`. -/
def WellTyped (s : Session) : Prop :=
  (∀ v, s.Get SessionKeyReturnUri = some v → ∃ f, v = Value.form f) ∧
  (∀ v, s.Get SessionKeyLoggedInUserID = some v → v = Value.str "test")

/-! ## The secret generator of `id_secret_gen/main.go` -/

/-- The alphabet of `base64.URLEncoding`. -/
def encodeURL : List Char :=
  "ABCDEFGHIJKLMNOPQRSTUVWXYZabcdefghijklmnopqrstuvwxyz0123456789-_".toList

/-- The table lookup `enc.encode[i]` of the encoder. -/
def encodeAt (i : Nat) : Char := encodeURL.getD i 'A'

/-- The padding character of `base64.URLEncoding`. -/
def padChar : Char := '='

/-- The method `Encode` of `base64.URLEncoding` over the bytes of the source: every full
group of three bytes gives four characters, a remainder of one or two bytes gives two
or three characters and padding up to four. The elements of the list are bytes, that
is numbers below 256. -/
def encode : List Nat → List Char
  | a :: b :: c :: rest =>
    let val := ((a <<< 16) ||| (b <<< 8)) ||| c
    encodeAt ((val >>> 18) &&& 0x3F) :: encodeAt ((val >>> 12) &&& 0x3F) ::
      encodeAt ((val >>> 6) &&& 0x3F) :: encodeAt (val &&& 0x3F) :: encode rest
  | [a, b] =>
    let val := (a <<< 16) ||| (b <<< 8)
    [encodeAt ((val >>> 18) &&& 0x3F), encodeAt ((val >>> 12) &&& 0x3F),
     encodeAt ((val >>> 6) &&& 0x3F), padChar]
  | [a] =>
    let val := a <<< 16
    [encodeAt ((val >>> 18) &&& 0x3F), encodeAt ((val >>> 12) &&& 0x3F), padChar, padChar]
  | [] => []

/-- The method `EncodeToString` of `base64.URLEncoding`. -/
def EncodeToString (src : List Nat) : String := String.mk (encode src)

/-- A value of the Go type `int` (64 bits, two's complement). -/
structure GoInt where
  val : Int
  inRange : -9223372036854775808 ≤ val ∧ val ≤ 9223372036854775807

/-- The contents of a buffer of `length` bytes after `rand.Read` filled it from the
entropy stream. -/
def randomBytes (stream : Nat → Nat) (length : Int) : List Nat :=
  (List.range length.toNat).map (fun i => stream i % 256)

/-- The statements `randomBytes := make([]byte, length)` and `rand.Read(randomBytes)`
(lines 31-35). `maxAlloc` is the largest buffer the run-time system can allocate: for a
longer one `make` panics and the random source is never read (`none`). Otherwise `rand`
is what `rand.Read` does: it fails with an error or fills the buffer from a stream. -/
def readRandom (maxAlloc : Nat) (rand : Except String (Nat → Nat)) (length : GoInt) :
    Option (Except String (List Nat)) :=
  if maxAlloc < length.val.toNat then
    none
  else
    match rand with
    | Except.error e => some (Except.error e)
    | Except.ok stream => some (Except.ok (randomBytes stream length.val))

/-- The function `GenerateClientSecret(length)`: the secret and the error, or `none`
when `make` panics. -/
def GenerateClientSecret (maxAlloc : Nat) (rand : Except String (Nat → Nat))
    (length : GoInt) : Option (String × Option String) :=
  if length.val ≤ 0 then
    some ("", some "length must be positive")
  else
    match readRandom maxAlloc rand length with
    | none => none
    | some (Except.error e) =>
      some ("", some ("failed to read crypto/rand bytes for secret: " ++ e))
    | some (Except.ok randomBytes) => some (EncodeToString randomBytes, none)

/-! ### The encoding as RFC 4648 defines it -/

/-- The eight bits of a byte, most significant first. -/
def byteBits (b : Nat) : List Bool :=
  [b.testBit 7, b.testBit 6, b.testBit 5, b.testBit 4, b.testBit 3, b.testBit 2,
   b.testBit 1, b.testBit 0]

/-- The number a list of bits spells, most significant bit first. -/
def bitsValue (bits : List Bool) : Nat :=
  bits.foldl (fun acc bit => 2 * acc + bit.toNat) 0

/-- The `i`-th 6-bit group of a bit string, read from the left; zero bits are added on
the right of a last group that is short (RFC 4648, section 4). -/
def sextet (bits : List Bool) (i : Nat) : Nat :=
  bitsValue (((bits ++ List.replicate 5 false).drop (6 * i)).take 6)

/-- The URL-safe base 64 alphabet (RFC 4648, table 2): values 0-25 are `A`-`Z`, 26-51
are `a`-`z`, 52-61 are `0`-`9`, 62 is `-` and 63 is `_`. -/
def base64urlChar (v : Nat) : Char :=
  if v < 26 then Char.ofNat (65 + v)
  else if v < 52 then Char.ofNat (97 + (v - 26))
  else if v < 62 then Char.ofNat (48 + (v - 52))
  else if v = 62 then '-'
  else '_'

/-- The padded URL-safe base64 encoding in the words of RFC 4648, sections 4 and 5:
three bytes form a 24-bit group that is read as four 6-bit groups, each translated
through the alphabet; a final group of two bytes gives three characters and one `=`, a
final group of one byte gives two characters and two `=`. -/
def base64urlSpec : List Nat → List Char
  | a :: b :: c :: rest =>
    let bits := byteBits a ++ byteBits b ++ byteBits c
    base64urlChar (sextet bits 0) :: base64urlChar (sextet bits 1) ::
      base64urlChar (sextet bits 2) :: base64urlChar (sextet bits 3) :: base64urlSpec rest
  | [a, b] =>
    let bits := byteBits a ++ byteBits b
    [base64urlChar (sextet bits 0), base64urlChar (sextet bits 1),
     base64urlChar (sextet bits 2), '=']
  | [a] =>
    let bits := byteBits a
    [base64urlChar (sextet bits 0), base64urlChar (sextet bits 1), '=', '=']
  | [] => []

/-- The characters a padded URL-safe base64 string is made of. -/
def urlSafeChar (c : Char) : Prop :=
  ('A' ≤ c ∧ c ≤ 'Z') ∨ ('a' ≤ c ∧ c ≤ 'z') ∨ ('0' ≤ c ∧ c ≤ '9') ∨ c = '-' ∨ c = '_' ∨
    c = '='

instance (c : Char) : Decidable (urlSafeChar c) := by
  unfold urlSafeChar; infer_instance

/-! ## Concrete inputs -/

/-- Session operations that all succeed. -/
def noFaults : Faults := { start := none, save := none }

/-- Session operations of which `Save` fails. -/
def saveFails : Faults := { start := none, save := some "session store unavailable" }

/-- A library server that accepts every authorize request and no bearer token. -/
def acceptingServer : Server :=
  { parsesForm := true
    validate := fun _ => none
    onUserErr := fun _ e => LibResult.failed e
    grant := fun _ _ => LibResult.responded (ctxRedirect StatusFound "http://cb/?code=X")
    ValidationBearerToken := fun _ => Except.error "invalid access token" }

/-- A library server that rejects every authorize request with an error and accepts
every bearer token as the one of user `test`. -/
def rejectingServer : Server :=
  { parsesForm := true
    validate := fun _ => some (LibResult.failed "invalid_request")
    onUserErr := fun _ e => LibResult.failed e
    grant := fun _ _ => LibResult.responded (ctxRedirect StatusFound "http://cb/?code=X")
    ValidationBearerToken := fun _ => Except.ok { UserID := "test" } }

/-- The parameters of an earlier authorize request. -/
def oldForm : Values :=
  [("client_id", ["grafana_id"]), ("redirect_uri", ["http://localhost:3000/login/generic_oauth"]),
   ("response_type", ["code"]), ("scope", ["read"])]

/-- A fresh inbound authorize request of another client. -/
def newRequest : Request :=
  { Form := none
    params := [("client_id", ["demo_client_id"]), ("redirect_uri", ["http://localhost:9094/oauth2"]),
               ("response_type", ["code"]), ("scope", ["all"])] }

/-- An inbound authorize request that carries the earlier parameters itself. -/
def oldRequest : Request := { Form := none, params := oldForm }

/-- A login submission with the right credentials. -/
def goodLogin : Request :=
  { Form := none, params := [("username", ["test"]), ("password", ["test"])] }

/-- A login submission with a wrong password. -/
def badLogin : Request :=
  { Form := none, params := [("username", ["test"]), ("password", ["Test"])] }

/-- A library server that accepts every authorize request at validation and fails at
issuing the code (an unknown client, a redirect URI that is not the client's). -/
def failingGrantServer : Server :=
  { parsesForm := true
    validate := fun _ => none
    onUserErr := fun _ e => LibResult.failed e
    grant := fun _ _ => LibResult.failed "invalid_client"
    ValidationBearerToken := fun _ => Except.error "invalid access token" }

/-- An entropy stream that starts with the bytes of `foobar`. -/
def foobarStream : Nat → Nat := fun i => [102, 111, 111, 98, 97, 114].getD i 0

/-- An entropy stream that starts with the bytes 251 and 255. -/
def highStream : Nat → Nat := fun i => [251, 255].getD i 0

def length0 : GoInt := { val := 0, inRange := by decide }
def length2 : GoInt := { val := 2, inRange := by decide }
def length6 : GoInt := { val := 6, inRange := by decide }
def length32 : GoInt := { val := 32, inRange := by decide }
def length64 : GoInt := { val := 64, inRange := by decide }

/-- The length `1 << 62`. -/
def lengthHuge : GoInt := { val := 4611686018427387904, inRange := by decide }

/-- A session that holds the form of an earlier, abandoned authorize request. -/
def pendingSession : Session :=
  Session.empty.Set SessionKeyReturnUri (Value.form (some oldForm))

/-- A session after login: the pending form and the logged-in user. -/
def loggedInSession : Session :=
  pendingSession.Set SessionKeyLoggedInUserID (Value.str "test")

/-! ## Theorems -/

/-! ### The session map -/

@[simp]
theorem Session.Get_Set_same (s : Session) (k : String) (v : Value) :
    (s.Set k v).Get k = some v := by
  simp [Session.Get, Session.Set]

@[simp]
theorem Session.Get_Set_other (s : Session) (k j : String) (v : Value) (h : j ≠ k) :
    (s.Set k v).Get j = s.Get j := by
  simp [Session.Get, Session.Set, h]

@[simp]
theorem Session.Get_Delete_same (s : Session) (k : String) :
    (s.Delete k).Get k = none := by
  simp [Session.Get, Session.Delete]

@[simp]
theorem Session.Get_Delete_other (s : Session) (k j : String) (h : j ≠ k) :
    (s.Delete k).Get j = s.Get j := by
  simp [Session.Get, Session.Delete, h]

theorem Session.Delete_absent (s : Session) (k : String) (h : s.Get k = none) :
    s.Delete k = s := by
  funext j
  by_cases hj : j = k
  · subst hj
    simpa [Session.Delete, Session.Get] using h.symm
  · simp [Session.Delete, hj]

theorem keys_ne : SessionKeyLoggedInUserID ≠ SessionKeyReturnUri := by decide

theorem keys_ne_symm : SessionKeyReturnUri ≠ SessionKeyLoggedInUserID := by decide

/-! ### The two halves of the authorize handler -/

/-- With session start and save succeeding and a form (or nothing) under `ReturnUri`,
the authorize handler reaches the library call with that form as the request form and
with the entry deleted. -/
theorem authorizePrepare_ready (io : Faults) (s : Session) (r : Request)
    (hstart : io.start = none) (hsave : io.save = none) (form : Option Values)
    (hret : s.Get SessionKeyReturnUri = none ∧ form = none ∨
      s.Get SessionKeyReturnUri = some (Value.form form)) :
    authorizePrepare io s r =
      some (Prepared.ready (s.Delete SessionKeyReturnUri) { r with Form := form }
        [Call.start, Call.get SessionKeyReturnUri, Call.delete SessionKeyReturnUri,
         Call.save]) := by
  unfold authorizePrepare
  rcases hret with ⟨h, rfl⟩ | h <;> simp [hstart, hsave, h]

/-- What `handedRequest` being defined says about the handler and the session. -/
theorem handedRequest_some (io : Faults) (s : Session) (r req : Request)
    (h : handedRequest io s r = some req) :
    io.start = none ∧ io.save = none ∧
    (s.Get SessionKeyReturnUri = none ∧ req.Form = none ∨
      s.Get SessionKeyReturnUri = some (Value.form req.Form)) ∧
    req = { r with Form := req.Form } ∧
    authorizePrepare io s r =
      some (Prepared.ready (s.Delete SessionKeyReturnUri) req
        [Call.start, Call.get SessionKeyReturnUri, Call.delete SessionKeyReturnUri,
         Call.save]) := by
  unfold handedRequest authorizePrepare at h
  unfold authorizePrepare
  cases hstart : io.start with
  | some e => simp [hstart] at h
  | none =>
    cases hsave : io.save with
    | some e =>
      cases hret : s.Get SessionKeyReturnUri with
      | none => simp [hstart, hsave, hret] at h
      | some v => cases v <;> simp [hstart, hsave, hret] at h
    | none =>
      cases hret : s.Get SessionKeyReturnUri with
      | none =>
        simp [hstart, hsave, hret] at h
        subst h
        simp
      | some v =>
        cases v with
        | form f =>
          simp [hstart, hsave, hret] at h
          subst h
          simp
        | str x => simp [hstart, hsave, hret] at h
        | other n => simp [hstart, hsave, hret] at h

/-! ### The user-authorization handler -/

theorem effectiveForm_passes (srv : Server) (r : Request) :
    (srv.passes r).effectiveForm = r.effectiveForm := by
  unfold Server.passes Request.effectiveForm Request.ParseForm
  cases srv.parsesForm <;> cases hf : r.Form <;> simp [hf]

/-- The branch of `userAuthorizeHandler` for a session without `LoggedInUserID`. -/
theorem userAuthorizeHandler_unauthenticated (io : Faults) (s : Session) (r : Request)
    (hstart : io.start = none) (hno : s.Get SessionKeyLoggedInUserID = none) :
    ∃ ua, userAuthorizeHandler io s r = some ua ∧ ua.userID = "" ∧ ua.err = none ∧
      ua.written = some { status := 302, location := some "/login", body := Body.empty } ∧
      ua.session = s.Set SessionKeyReturnUri (Value.form (some r.effectiveForm)) := by
  unfold userAuthorizeHandler
  cases hf : r.Form <;>
    simp [hstart, hno, hf, Request.ParseForm, Request.effectiveForm, StatusFound]

/-- The branch of `userAuthorizeHandler` for a session with a string under
`LoggedInUserID`. -/
theorem userAuthorizeHandler_authenticated (io : Faults) (s : Session) (r : Request)
    (u : String) (hstart : io.start = none)
    (hu : s.Get SessionKeyLoggedInUserID = some (Value.str u)) :
    ∃ ua, userAuthorizeHandler io s r = some ua ∧ ua.userID = u ∧ ua.err = none ∧
      ua.written = none ∧ ua.session = s.Delete SessionKeyLoggedInUserID ∧
      ua.calls = [Call.start, Call.get SessionKeyLoggedInUserID,
        Call.delete SessionKeyLoggedInUserID, Call.save] := by
  unfold userAuthorizeHandler
  simp [hstart, hu]

@[simp]
theorem authorizeFinish_session (calls : List Call) (lib : LibOutcome) :
    (authorizeFinish calls lib).session = lib.session := by
  unfold authorizeFinish; split <;> rfl

@[simp]
theorem authorizeFinish_user (calls : List Call) (lib : LibOutcome) :
    (authorizeFinish calls lib).user = lib.user := by
  unfold authorizeFinish; split <;> rfl

@[simp]
theorem authorizeFinish_calls (calls : List Call) (lib : LibOutcome) :
    (authorizeFinish calls lib).calls =
      calls ++ (lib.user.map (fun u => u.calls)).getD [] := by
  unfold authorizeFinish; split <;> rfl

@[simp]
theorem LibOutcome.ofResult_session (s : Session) (user : Option UserAuth)
    (res : LibResult) : (LibOutcome.ofResult s user res).session = s := by
  cases res <;> rfl

@[simp]
theorem LibOutcome.ofResult_user (s : Session) (user : Option UserAuth)
    (res : LibResult) : (LibOutcome.ofResult s user res).user = user := by
  cases res <;> rfl

/-- Once validation has passed and the user-authorization handler has returned, the
library call ends with the session and the result of that handler. -/
theorem HandleAuthorizeRequest_user (srv : Server) (ioU : Faults) (s : Session)
    (r : Request) (ua : UserAuth) (hval : srv.validate (srv.passes r) = none)
    (hua : userAuthorizeHandler ioU s (srv.passes r) = some ua) :
    ∃ lib, srv.HandleAuthorizeRequest ioU s r = some lib ∧ lib.session = ua.session ∧
      lib.user = some ua := by
  unfold Server.HandleAuthorizeRequest
  simp only [hval, hua]
  cases ua.err with
  | some e => exact ⟨_, rfl, by simp, by simp⟩
  | none =>
    by_cases hid : ua.userID = ""
    · simp [hid]
    · simp only [hid, if_false]
      exact ⟨_, rfl, by simp, by simp⟩

/-- The three ways `userAuthorizeHandler` returns: the session start failed, the session
held no `LoggedInUserID`, or it held a string. -/
theorem userAuthorizeHandler_cases (io : Faults) (s : Session) (r : Request) (ua : UserAuth)
    (h : userAuthorizeHandler io s r = some ua) :
    ((∃ e, io.start = some e ∧ ua.err = some e) ∧ ua.session = s) ∨
    (io.start = none ∧ s.Get SessionKeyLoggedInUserID = none ∧ ua.userID = "" ∧
      ua.err = none) ∨
    (io.start = none ∧ ua.err = none ∧
      ∃ u, s.Get SessionKeyLoggedInUserID = some (Value.str u) ∧ ua.userID = u ∧
        ua.session = s.Delete SessionKeyLoggedInUserID) := by
  cases hstart : io.start with
  | some e =>
    left
    simp only [userAuthorizeHandler, hstart, Option.some.injEq] at h
    subst h
    exact ⟨⟨e, rfl, rfl⟩, rfl⟩
  | none =>
    right
    cases hu : s.Get SessionKeyLoggedInUserID with
    | none =>
      left
      obtain ⟨ua1, h1, hid, herr, _, _⟩ := userAuthorizeHandler_unauthenticated io s r hstart hu
      rw [h] at h1
      cases h1
      exact ⟨rfl, rfl, hid, herr⟩
    | some v =>
      right
      cases v with
      | str u =>
        obtain ⟨ua1, h1, hid, herr, _, hs, _⟩ :=
          userAuthorizeHandler_authenticated io s r u hstart hu
        rw [h] at h1
        cases h1
        exact ⟨rfl, herr, u, rfl, hid, hs⟩
      | form f => simp [userAuthorizeHandler, hstart, hu] at h
      | other n => simp [userAuthorizeHandler, hstart, hu] at h

theorem LibOutcome.ofResult_err (s : Session) (user : Option UserAuth) (res : LibResult)
    (e : String) (h : (LibOutcome.ofResult s user res).err = some e) :
    res = LibResult.failed e := by
  cases res with
  | failed e1 =>
    simp only [LibOutcome.ofResult, Option.some.injEq] at h
    rw [h]
  | responded resp => simp [LibOutcome.ofResult] at h

/-- When the library call returns an error, either validation rejected the request
before the user-authorization handler ran, or the session start of that handler failed,
or the handler returned a non-empty user ID (deleting `LoggedInUserID`) and the grant
failed afterwards. -/
theorem HandleAuthorizeRequest_error (srv : Server) (ioU : Faults) (s : Session)
    (r : Request) (lib : LibOutcome) (e : String)
    (hlib : srv.HandleAuthorizeRequest ioU s r = some lib) (herr : lib.err = some e) :
    (srv.validate (srv.passes r) = some (LibResult.failed e) ∧ lib.session = s) ∨
    (srv.validate (srv.passes r) = none ∧ (∃ e1, ioU.start = some e1) ∧ lib.session = s) ∨
    (srv.validate (srv.passes r) = none ∧ ioU.start = none ∧
      ∃ u, s.Get SessionKeyLoggedInUserID = some (Value.str u) ∧ u ≠ "" ∧
        lib.session = s.Delete SessionKeyLoggedInUserID) := by
  unfold Server.HandleAuthorizeRequest at hlib
  cases hval : srv.validate (srv.passes r) with
  | some res =>
    left
    simp only [hval, Option.some.injEq] at hlib
    subst hlib
    rw [LibOutcome.ofResult_err _ _ _ _ herr]
    exact ⟨rfl, by simp⟩
  | none =>
    right
    simp only [hval] at hlib
    cases hua : userAuthorizeHandler ioU s (srv.passes r) with
    | none => simp [hua] at hlib
    | some ua =>
      simp only [hua] at hlib
      rcases userAuthorizeHandler_cases ioU s _ ua hua with
        ⟨⟨e1, hs1, he1⟩, hsess⟩ | ⟨_, _, hid, hnone⟩ | ⟨hs0, hnone, u, hu, hid, hsess⟩
      · left
        simp only [he1, Option.some.injEq] at hlib
        subst hlib
        exact ⟨rfl, ⟨e1, hs1⟩, by simp [hsess]⟩
      · simp only [hnone, hid, if_true, Option.some.injEq] at hlib
        subst hlib
        simp at herr
      · right
        by_cases hempty : ua.userID = ""
        · simp only [hnone, hempty, if_true, Option.some.injEq] at hlib
          subst hlib
          simp at herr
        · simp only [hnone, hempty, if_false, Option.some.injEq] at hlib
          subst hlib
          exact ⟨rfl, hs0, u, hu, hid ▸ hempty, by simp [hsess]⟩

/-- The authorize handler is its preparation followed by the library call. -/
theorem authorizeHandler_of_ready (srv : Server) (io ioU : Faults) (s s1 : Session)
    (r req : Request) (calls : List Call)
    (hprep : authorizePrepare io s r = some (Prepared.ready s1 req calls)) :
    authorizeHandler srv io ioU s r =
      (srv.HandleAuthorizeRequest ioU s1 req).map (authorizeFinish calls) := by
  unfold authorizeHandler
  rw [hprep]
  cases h : srv.HandleAuthorizeRequest ioU s1 req <;> simp [h]

/-! ### The typing discipline is kept -/

theorem WellTyped.delete (s : Session) (k : String) (h : WellTyped s) :
    WellTyped (s.Delete k) := by
  constructor
  · intro v hv
    by_cases hk : SessionKeyReturnUri = k
    · subst hk; simp at hv
    · rw [Session.Get_Delete_other _ _ _ hk] at hv; exact h.1 v hv
  · intro v hv
    by_cases hk : SessionKeyLoggedInUserID = k
    · subst hk; simp at hv
    · rw [Session.Get_Delete_other _ _ _ hk] at hv; exact h.2 v hv

theorem WellTyped.setForm (s : Session) (f : Option Values) (h : WellTyped s) :
    WellTyped (s.Set SessionKeyReturnUri (Value.form f)) := by
  constructor
  · intro v hv
    simp at hv
    exact ⟨f, hv.symm⟩
  · intro v hv
    rw [Session.Get_Set_other _ _ _ _ keys_ne] at hv; exact h.2 v hv

theorem WellTyped.setUser (s : Session) (h : WellTyped s) :
    WellTyped (s.Set SessionKeyLoggedInUserID (Value.str "test")) := by
  constructor
  · intro v hv
    rw [Session.Get_Set_other _ _ _ _ keys_ne_symm] at hv; exact h.1 v hv
  · intro v hv
    simp at hv
    exact hv.symm

theorem WellTyped.empty : WellTyped Session.empty := by
  constructor <;> intro v hv <;> simp [Session.Get, Session.empty] at hv

theorem userAuthorizeHandler_wellTyped (io : Faults) (s : Session) (r : Request)
    (h : WellTyped s) :
    ∃ ua, userAuthorizeHandler io s r = some ua ∧ WellTyped ua.session := by
  cases hstart : io.start with
  | some e => exact ⟨_, by simp [userAuthorizeHandler, hstart]; rfl, h⟩
  | none =>
    cases hu : s.Get SessionKeyLoggedInUserID with
    | none =>
      obtain ⟨ua, hua, _, _, _, hs⟩ := userAuthorizeHandler_unauthenticated io s r hstart hu
      exact ⟨ua, hua, hs ▸ WellTyped.setForm s _ h⟩
    | some v =>
      have hv := h.2 v hu
      subst hv
      obtain ⟨ua, hua, _, _, _, hs, _⟩ :=
        userAuthorizeHandler_authenticated io s r "test" hstart hu
      exact ⟨ua, hua, hs ▸ WellTyped.delete s _ h⟩

theorem HandleAuthorizeRequest_wellTyped (srv : Server) (ioU : Faults) (s : Session)
    (r : Request) (h : WellTyped s) :
    ∃ lib, srv.HandleAuthorizeRequest ioU s r = some lib ∧ WellTyped lib.session := by
  cases hval : srv.validate (srv.passes r) with
  | some res =>
    exact ⟨_, by simp [Server.HandleAuthorizeRequest, hval]; rfl, by simpa using h⟩
  | none =>
    obtain ⟨ua, hua, hwt⟩ := userAuthorizeHandler_wellTyped ioU s (srv.passes r) h
    obtain ⟨lib, hlib, hs, _⟩ := HandleAuthorizeRequest_user srv ioU s r ua hval hua
    exact ⟨lib, hlib, hs ▸ hwt⟩

theorem authorizeHandler_wellTyped (srv : Server) (io ioU : Faults) (s : Session)
    (r : Request) (h : WellTyped s) :
    ∃ out, authorizeHandler srv io ioU s r = some out ∧ WellTyped out.session := by
  cases hstart : io.start with
  | some e =>
    exact ⟨_, by simp [authorizeHandler, authorizePrepare, hstart]; rfl, h⟩
  | none =>
    have hform : ∃ form, s.Get SessionKeyReturnUri = none ∧ form = none ∨
        s.Get SessionKeyReturnUri = some (Value.form form) := by
      cases hret : s.Get SessionKeyReturnUri with
      | none => exact ⟨none, Or.inl ⟨rfl, rfl⟩⟩
      | some v =>
        obtain ⟨f, hf⟩ := h.1 v hret
        exact ⟨f, Or.inr (by rw [hf])⟩
    obtain ⟨form, hform⟩ := hform
    cases hsave : io.save with
    | some e =>
      refine ⟨{ session := s.Delete SessionKeyReturnUri, written := none, err := some e,
                calls := [Call.start, Call.get SessionKeyReturnUri,
                  Call.delete SessionKeyReturnUri, Call.save], user := none }, ?_,
              WellTyped.delete s _ h⟩
      rcases hform with ⟨h1, _⟩ | h1 <;>
        simp [authorizeHandler, authorizePrepare, hstart, hsave, h1]
    | none =>
      have hprep := authorizePrepare_ready io s r hstart hsave form hform
      obtain ⟨lib, hlib, hwt⟩ := HandleAuthorizeRequest_wellTyped srv ioU
        (s.Delete SessionKeyReturnUri) { r with Form := form } (WellTyped.delete s _ h)
      rw [authorizeHandler_of_ready srv io ioU s _ r _ _ hprep, hlib]
      exact ⟨_, rfl, by simpa using hwt⟩

theorem loginHandler_wellTyped (io : Faults) (s : Session) (r : Request)
    (h : WellTyped s) : WellTyped (loginHandler io s r).session := by
  unfold loginHandler
  cases hstart : io.start with
  | some e => simpa using h
  | none =>
    by_cases hc : r.FormValue "username" = "test" ∧ r.FormValue "password" = "test"
    · have hs := WellTyped.setUser s h
      cases hsave : io.save <;> simpa [hc, hc.1] using hs
    · simpa [hc] using h

theorem authHandler_session (static : String → Except String String) (io : Faults)
    (s : Session) : (authHandler static io s).session = s := by
  unfold authHandler
  cases io.start with
  | some e => rfl
  | none =>
    simp only
    cases s.Get SessionKeyLoggedInUserID with
    | none => rfl
    | some v => simp only; cases static "static/auth.html" <;> rfl

theorem step_wellTyped (s : Session) (a : Action) (h : WellTyped s) :
    ∃ s1, step s a = some s1 ∧ WellTyped s1 := by
  cases a with
  | authorize srv io ioU r =>
    obtain ⟨out, hout, hwt⟩ := authorizeHandler_wellTyped srv io ioU s r h
    exact ⟨out.session, by simp [step, hout], hwt⟩
  | userAuthorize io r =>
    obtain ⟨ua, hua, hwt⟩ := userAuthorizeHandler_wellTyped io s r h
    exact ⟨ua.session, by simp [step, hua], hwt⟩
  | login io r => exact ⟨_, rfl, loginHandler_wellTyped io s r h⟩
  | auth static io => exact ⟨_, rfl, (authHandler_session static io s).symm ▸ h⟩

theorem run_wellTyped (acts : List Action) (s : Session) (h : WellTyped s) :
    ∃ s1, run s acts = some s1 ∧ WellTyped s1 := by
  induction acts generalizing s with
  | nil => exact ⟨s, rfl, h⟩
  | cons a rest ih =>
    obtain ⟨s1, hs1, hwt⟩ := step_wellTyped s a h
    obtain ⟨s2, hs2, hwt2⟩ := ih s1 hwt
    exact ⟨s2, by simp [run, hs1, hs2], hwt2⟩

/-! ### The base64 encoder -/

theorem encodeURL_urlSafe : ∀ c ∈ encodeURL, urlSafeChar c := by decide

theorem encodeAt_urlSafe (i : Nat) : urlSafeChar (encodeAt i) := by
  unfold encodeAt
  by_cases h : i < encodeURL.length
  · rw [List.getD_eq_getElem _ _ h]
    exact encodeURL_urlSafe _ (List.getElem_mem _)
  · rw [List.getD_eq_default _ _ (Nat.le_of_not_lt h)]
    decide

theorem padChar_urlSafe : urlSafeChar padChar := by decide

theorem encode_urlSafe (src : List Nat) : ∀ c ∈ encode src, urlSafeChar c := by
  induction src using encode.induct with
  | case1 a b c rest ih =>
    intro x hx
    simp only [encode, List.mem_cons] at hx
    rcases hx with rfl | rfl | rfl | rfl | hx
    · exact encodeAt_urlSafe _
    · exact encodeAt_urlSafe _
    · exact encodeAt_urlSafe _
    · exact encodeAt_urlSafe _
    · exact ih x hx
  | case2 a b =>
    intro x hx
    simp only [encode, List.mem_cons, List.mem_singleton, List.not_mem_nil, or_false] at hx
    rcases hx with rfl | rfl | rfl | rfl
    · exact encodeAt_urlSafe _
    · exact encodeAt_urlSafe _
    · exact encodeAt_urlSafe _
    · exact padChar_urlSafe
  | case3 a =>
    intro x hx
    simp only [encode, List.mem_cons, List.mem_singleton, List.not_mem_nil, or_false] at hx
    rcases hx with rfl | rfl | rfl | rfl
    · exact encodeAt_urlSafe _
    · exact encodeAt_urlSafe _
    · exact padChar_urlSafe
    · exact padChar_urlSafe
  | case4 =>
    intro x hx
    simp [encode] at hx

theorem encode_length (src : List Nat) :
    (encode src).length = 4 * ((src.length + 2) / 3) := by
  induction src using encode.induct with
  | case1 a b c rest ih =>
    simp only [encode, List.length_cons, ih]
    omega
  | case2 a b => simp [encode]
  | case3 a => simp [encode]
  | case4 => simp [encode]

theorem urlSafeChar_ne_plus_slash (c : Char) (h : urlSafeChar c) : c ≠ '+' ∧ c ≠ '/' := by
  constructor
  · intro hc
    subst hc
    revert h
    decide
  · intro hc
    subst hc
    revert h
    decide

theorem randomBytes_length (stream : Nat → Nat) (length : Int) :
    (randomBytes stream length).length = length.toNat := by
  simp [randomBytes]

theorem ceil_div_three (n : Nat) : ⌈(n : ℚ) / 3⌉₊ = (n + 2) / 3 := by
  apply le_antisymm
  · rw [Nat.ceil_le]
    have h : n ≤ 3 * ((n + 2) / 3) := by omega
    have h2 : (n : ℚ) ≤ 3 * (((n + 2) / 3 : ℕ) : ℚ) := by exact_mod_cast h
    linarith
  · have h := Nat.le_ceil ((n : ℚ) / 3)
    have h2 : (n : ℚ) ≤ 3 * ((⌈(n : ℚ) / 3⌉₊ : ℕ) : ℚ) := by linarith
    have h3 : n ≤ 3 * ⌈(n : ℚ) / 3⌉₊ := by exact_mod_cast h2
    omega

theorem randomBytes_lt (stream : Nat → Nat) (length : Int) :
    ∀ b ∈ randomBytes stream length, b < 256 := by
  intro b hb
  simp only [randomBytes, List.mem_map] at hb
  obtain ⟨i, _, rfl⟩ := hb
  exact Nat.mod_lt _ (by norm_num)

theorem and_63 (x : Nat) : x &&& 0x3F = x % 64 := Nat.and_pow_two_sub_one_eq_mod x 6

theorem pack2 (a b : Nat) (hb : b < 256) :
    (a <<< 16) ||| (b <<< 8) = a * 65536 + b * 256 := by
  have h : b <<< 8 < 2 ^ 16 := by rw [Nat.shiftLeft_eq]; omega
  rw [Nat.shiftLeft_eq a 16, Nat.mul_comm a, ← Nat.mul_add_lt_is_or h, Nat.shiftLeft_eq]

theorem pack3 (a b c : Nat) (hb : b < 256) (hc : c < 256) :
    ((a <<< 16) ||| (b <<< 8)) ||| c = a * 65536 + b * 256 + c := by
  rw [pack2 a b hb]
  have h : c < 2 ^ 8 := by omega
  have e : a * 65536 + b * 256 = 2 ^ 8 * (a * 256 + b) := by omega
  rw [e, ← Nat.mul_add_lt_is_or h]

theorem encodeAt_eq_spec : ∀ v, v < 64 → encodeAt v = base64urlChar v := by decide

theorem sextets3 (a b c : Nat) (ha : a < 256) (hb : b < 256) (hc : c < 256) :
    sextet (byteBits a ++ byteBits b ++ byteBits c) 0 = a / 4 ∧
    sextet (byteBits a ++ byteBits b ++ byteBits c) 1 = a % 4 * 16 + b / 16 ∧
    sextet (byteBits a ++ byteBits b ++ byteBits c) 2 = b % 16 * 4 + c / 64 ∧
    sextet (byteBits a ++ byteBits b ++ byteBits c) 3 = c % 64 := by
  simp only [sextet, byteBits, bitsValue, List.cons_append, List.nil_append, List.replicate,
    List.drop, List.take, List.foldl, Nat.toNat_testBit, Nat.mul_zero, Nat.zero_add]
  refine ⟨?_, ?_, ?_, ?_⟩ <;> omega

theorem sextets2 (a b : Nat) (ha : a < 256) (hb : b < 256) :
    sextet (byteBits a ++ byteBits b) 0 = a / 4 ∧
    sextet (byteBits a ++ byteBits b) 1 = a % 4 * 16 + b / 16 ∧
    sextet (byteBits a ++ byteBits b) 2 = b % 16 * 4 := by
  simp only [sextet, byteBits, bitsValue, List.cons_append, List.nil_append, List.replicate,
    List.drop, List.take, List.foldl, Nat.toNat_testBit, Nat.mul_zero, Nat.zero_add,
    Bool.toNat_false]
  refine ⟨?_, ?_, ?_⟩ <;> omega

theorem sextets1 (a : Nat) (ha : a < 256) :
    sextet (byteBits a) 0 = a / 4 ∧ sextet (byteBits a) 1 = a % 4 * 16 := by
  simp only [sextet, byteBits, bitsValue, List.cons_append, List.nil_append, List.replicate,
    List.drop, List.take, List.foldl, Nat.toNat_testBit, Nat.mul_zero, Nat.zero_add,
    Bool.toNat_false]
  refine ⟨?_, ?_⟩ <;> omega

/-- The shift-and-mask loop of the encoder computes the encoding of RFC 4648. -/
theorem encode_eq_spec (src : List Nat) (h : ∀ b ∈ src, b < 256) :
    encode src = base64urlSpec src := by
  induction src using encode.induct with
  | case1 a b c rest ih =>
    have ha : a < 256 := h a (by simp)
    have hb : b < 256 := h b (by simp)
    have hc : c < 256 := h c (by simp)
    have hrest := ih (fun x hx => h x (by simp [hx]))
    obtain ⟨s0, s1, s2, s3⟩ := sextets3 a b c ha hb hc
    simp only [encode, base64urlSpec, pack3 a b c hb hc, and_63, Nat.shiftRight_eq_div_pow,
      s0, s1, s2, s3, hrest]
    rw [encodeAt_eq_spec _ (Nat.mod_lt _ (by norm_num)),
      encodeAt_eq_spec _ (Nat.mod_lt _ (by norm_num)),
      encodeAt_eq_spec _ (Nat.mod_lt _ (by norm_num)),
      encodeAt_eq_spec _ (Nat.mod_lt _ (by norm_num))]
    have e0 : (a * 65536 + b * 256 + c) / 2 ^ 18 % 64 = a / 4 := by omega
    have e1 : (a * 65536 + b * 256 + c) / 2 ^ 12 % 64 = a % 4 * 16 + b / 16 := by omega
    have e2 : (a * 65536 + b * 256 + c) / 2 ^ 6 % 64 = b % 16 * 4 + c / 64 := by omega
    have e3 : (a * 65536 + b * 256 + c) % 64 = c % 64 := by omega
    rw [e0, e1, e2, e3]
  | case2 a b =>
    have ha : a < 256 := h a (by simp)
    have hb : b < 256 := h b (by simp)
    obtain ⟨s0, s1, s2⟩ := sextets2 a b ha hb
    simp only [encode, base64urlSpec, pack2 a b hb, and_63, Nat.shiftRight_eq_div_pow,
      s0, s1, s2, padChar]
    rw [encodeAt_eq_spec _ (Nat.mod_lt _ (by norm_num)),
      encodeAt_eq_spec _ (Nat.mod_lt _ (by norm_num)),
      encodeAt_eq_spec _ (Nat.mod_lt _ (by norm_num))]
    have e0 : (a * 65536 + b * 256) / 2 ^ 18 % 64 = a / 4 := by omega
    have e1 : (a * 65536 + b * 256) / 2 ^ 12 % 64 = a % 4 * 16 + b / 16 := by omega
    have e2 : (a * 65536 + b * 256) / 2 ^ 6 % 64 = b % 16 * 4 := by omega
    rw [e0, e1, e2]
  | case3 a =>
    have ha : a < 256 := h a (by simp)
    obtain ⟨s0, s1⟩ := sextets1 a ha
    simp only [encode, base64urlSpec, Nat.shiftLeft_eq, and_63, Nat.shiftRight_eq_div_pow,
      s0, s1, padChar]
    rw [encodeAt_eq_spec _ (Nat.mod_lt _ (by norm_num)),
      encodeAt_eq_spec _ (Nat.mod_lt _ (by norm_num))]
    have e0 : a * 2 ^ 16 / 2 ^ 18 % 64 = a / 4 := by omega
    have e1 : a * 2 ^ 16 / 2 ^ 12 % 64 = a % 4 * 16 := by omega
    rw [e0, e1]
  | case4 => simp [encode, base64urlSpec]

/-- What a successful read of the random source says: the buffer was allocated and
holds `length` bytes. -/
theorem readRandom_ok (maxAlloc : Nat) (rand : Except String (Nat → Nat)) (length : GoInt)
    (bytes : List Nat) (h : readRandom maxAlloc rand length = some (Except.ok bytes)) :
    length.val.toNat ≤ maxAlloc ∧ ∃ stream, rand = Except.ok stream ∧
      bytes = randomBytes stream length.val := by
  unfold readRandom at h
  by_cases hm : maxAlloc < length.val.toNat
  · simp [hm] at h
  · cases rand with
    | error e => simp [hm] at h
    | ok stream =>
      simp only [hm, if_false, Option.some.injEq, Except.ok.injEq] at h
      exact ⟨Nat.le_of_not_lt hm, stream, rfl, h.symm⟩

/-- The encoder on the test vectors of RFC 4648 and on bytes that need the two
URL-safe characters. -/
theorem EncodeToString_vectors :
    EncodeToString [] = "" ∧
    EncodeToString [102] = "Zg==" ∧
    EncodeToString [102, 111] = "Zm8=" ∧
    EncodeToString [102, 111, 111] = "Zm9v" ∧
    EncodeToString [102, 111, 111, 98] = "Zm9vYg==" ∧
    EncodeToString [102, 111, 111, 98, 97, 114] = "Zm9vYmFy" ∧
    EncodeToString [251, 255] = "-_8=" ∧
    EncodeToString [255, 239, 190] = "_---" := by
  decide

/-- C4: the password-authorization handler returns user ID `test` with a nil error exactly
when username and password are both the literal `test`; for every other pair it returns
the empty user ID with a non-nil error; the client ID plays no part. -/
theorem passwordAuthorizationHandler_spec (clientID username password : String) :
    (passwordAuthorizationHandler clientID username password = ("test", none) ↔
      (username = "test" ∧ password = "test")) ∧
    (¬ (username = "test" ∧ password = "test") →
      (passwordAuthorizationHandler clientID username password).1 = "" ∧
      (passwordAuthorizationHandler clientID username password).2 ≠ none) ∧
    (∀ other : String, passwordAuthorizationHandler other username password =
      passwordAuthorizationHandler clientID username password) := by
  unfold passwordAuthorizationHandler
  by_cases h : username = "test" ∧ password = "test"
  · simp [h]
  · simp [h]

/-- C3: with session start and save succeeding, `loginHandler` stores the submitted
username under `LoggedInUserID` and answers with status 302 and Location `/auth` exactly
when username and password are both `test`; otherwise it answers with status 401, the
session is the one it found, and it made no `Set`, `Delete` or `Save` call. -/
theorem loginHandler_spec (io : Faults) (s : Session) (r : Request)
    (hstart : io.start = none) (hsave : io.save = none) :
    ((r.FormValue "username" = "test" ∧ r.FormValue "password" = "test") →
      (loginHandler io s r).session "LoggedInUserID" =
        some (Value.str (r.FormValue "username")) ∧
      (∀ k, k ≠ "LoggedInUserID" → (loginHandler io s r).session k = s k) ∧
      (loginHandler io s r).session =
        s.Set SessionKeyLoggedInUserID (Value.str (r.FormValue "username")) ∧
      (loginHandler io s r).written =
        some { status := 302, location := some "/auth", body := Body.empty } ∧
      (loginHandler io s r).err = none) ∧
    (¬ (r.FormValue "username" = "test" ∧ r.FormValue "password" = "test") →
      (loginHandler io s r).session = s ∧
      (loginHandler io s r).written =
        some { status := 401, location := none,
               body := Body.text "Invalid username or password" } ∧
      (loginHandler io s r).err = none ∧
      (loginHandler io s r).calls = [Call.start]) ∧
    ((∃ w, (loginHandler io s r).written = some w ∧ w.status = 302 ∧
        w.location = some "/auth") ↔
      (r.FormValue "username" = "test" ∧ r.FormValue "password" = "test")) ∧
    ((∃ w, (loginHandler io s r).written = some w ∧ w.status = 401) ↔
      ¬ (r.FormValue "username" = "test" ∧ r.FormValue "password" = "test")) := by
  by_cases h : r.FormValue "username" = "test" ∧ r.FormValue "password" = "test"
  · have e : loginHandler io s r =
        { session := s.Set SessionKeyLoggedInUserID (Value.str (r.FormValue "username")),
          written := some (ctxRedirect StatusFound "/auth"), err := none,
          calls := [Call.start,
            Call.set SessionKeyLoggedInUserID (Value.str (r.FormValue "username")),
            Call.save],
          user := none } := by
      simp [loginHandler, hstart, hsave, h]
    rw [e]
    refine ⟨fun _ => ⟨?_, ?_, rfl, rfl, rfl⟩, fun hn => absurd h hn,
      ⟨fun _ => h, fun _ => ⟨_, rfl, rfl, rfl⟩⟩, ⟨?_, fun hn => absurd h hn⟩⟩
    · simp [Session.Set, SessionKeyLoggedInUserID]
    · intro k hk
      simp [Session.Set, SessionKeyLoggedInUserID, hk]
    · rintro ⟨w, hw, hs⟩
      simp only [Option.some.injEq] at hw
      subst hw
      exact absurd hs (by decide)
  · have e : loginHandler io s r =
        { session := s,
          written := some (ctxString StatusUnauthorized "Invalid username or password"),
          err := none, calls := [Call.start], user := none } := by
      simp [loginHandler, hstart, h]
    rw [e]
    refine ⟨fun hc => absurd hc h, fun _ => ⟨rfl, rfl, rfl, rfl⟩,
      ⟨?_, fun hc => absurd hc h⟩, ⟨fun _ => h, fun _ => ⟨_, rfl, rfl⟩⟩⟩
    rintro ⟨w, hw, hs, _⟩
    simp only [Option.some.injEq] at hw
    subst hw
    exact absurd hs (by decide)

/-- Witness of C3: the right credentials, then a wrong password, on the empty session. -/
theorem loginHandler_spec_witness :
    noFaults.start = none ∧ noFaults.save = none ∧
    (goodLogin.FormValue "username" = "test" ∧ goodLogin.FormValue "password" = "test") ∧
    ¬ (badLogin.FormValue "username" = "test" ∧ badLogin.FormValue "password" = "test") ∧
    (loginHandler noFaults Session.empty goodLogin).written =
        some { status := 302, location := some "/auth", body := Body.empty } ∧
    (loginHandler noFaults Session.empty goodLogin).session "LoggedInUserID" =
        some (Value.str "test") ∧
    (loginHandler noFaults Session.empty badLogin).written =
        some { status := 401, location := none,
               body := Body.text "Invalid username or password" } ∧
    (loginHandler noFaults Session.empty badLogin).session = Session.empty ∧
    (loginHandler noFaults Session.empty badLogin).calls = [Call.start] :=
  ⟨rfl, rfl, by decide, by decide,
   ((loginHandler_spec noFaults Session.empty goodLogin rfl rfl).1 (by decide)).2.2.2.1,
   ((loginHandler_spec noFaults Session.empty goodLogin rfl rfl).1 (by decide)).1,
   ((loginHandler_spec noFaults Session.empty badLogin rfl rfl).2.1 (by decide)).2.1,
   ((loginHandler_spec noFaults Session.empty badLogin rfl rfl).2.1 (by decide)).1,
   ((loginHandler_spec noFaults Session.empty badLogin rfl rfl).2.1 (by decide)).2.2.2⟩

/-- Counterexample to C7: a request whose bearer token the library rejects is answered
with status 400, not 401. -/
theorem userinfo_rejected_status_400 :
    acceptingServer.ValidationBearerToken newRequest = Except.error "invalid access token" ∧
    (userinfoHandler acceptingServer newRequest).status = 400 ∧
    (userinfoHandler acceptingServer newRequest).status ≠ 401 :=
  ⟨rfl, by decide, by decide⟩

/-- C7 as amended: a request rejected by `srv.ValidationBearerToken` is answered with
status 400 and the error text as JSON body; an accepted one with status 200 and a JSON
body whose `sub` is the user ID of the validated token. -/
theorem userinfoHandler_spec (srv : Server) (r : Request) :
    (∀ e, srv.ValidationBearerToken r = Except.error e →
      userinfoHandler srv r = { status := 400, location := none, body := Body.jsonString e }) ∧
    (∀ t, srv.ValidationBearerToken r = Except.ok t →
      (userinfoHandler srv r).status = 200 ∧
      ∃ u, (userinfoHandler srv r).body = Body.json u ∧ u.Sub = t.GetUserID) := by
  constructor
  · intro e h
    simp [userinfoHandler, h, StatusBadRequest]
  · intro t h
    simp [userinfoHandler, h, StatusOK]

/-- C6, evaluated: a failing `session.Start` makes each of the three handlers return the
error, write nothing and return no user ID, and a failing `Save` is returned by the
`/oauth/authorize` handler and by `loginHandler`; but `userAuthorizeHandler` drops the
result of `stor.Save()`: with a failing save it still redirects to `/login` with a nil
error, and for a logged-in session it still returns the user ID with a nil error. -/
theorem userAuthorizeHandler_drops_save_error :
    (∀ (srv : Server) (io ioU : Faults) (s : Session) (r : Request) (e : String),
      io.start = some e →
      (authorizeHandler srv io ioU s r).map (fun o => (o.err, o.written)) =
        some (some e, none)) ∧
    (∀ (io : Faults) (s : Session) (r : Request) (e : String), io.start = some e →
      (userAuthorizeHandler io s r).map (fun o => (o.err, o.written, o.userID)) =
        some (some e, none, "")) ∧
    (∀ (io : Faults) (s : Session) (r : Request) (e : String), io.start = some e →
      (loginHandler io s r).err = some e ∧ (loginHandler io s r).written = none) ∧
    (∀ (srv : Server) (io ioU : Faults) (s : Session) (r : Request) (e : String),
      io.start = none → io.save = some e →
      (s.Get SessionKeyReturnUri = none ∨ ∃ f, s.Get SessionKeyReturnUri = some (Value.form f)) →
      (authorizeHandler srv io ioU s r).map (fun o => (o.err, o.written)) =
        some (some e, none)) ∧
    (∀ (io : Faults) (s : Session) (e : String), io.start = none → io.save = some e →
      (loginHandler io s goodLogin).err = some e ∧
      (loginHandler io s goodLogin).written = none) ∧
    (userAuthorizeHandler saveFails Session.empty newRequest).map
        (fun o => (o.err, o.written, o.userID)) =
      some (none, some { status := 302, location := some "/login", body := Body.empty }, "") ∧
    (userAuthorizeHandler saveFails loggedInSession newRequest).map
        (fun o => (o.err, o.written, o.userID)) =
      some (none, none, "test") := by
  refine ⟨?_, ?_, ?_, ?_, ?_, ?_, ?_⟩
  · intro srv io ioU s r e h
    simp [authorizeHandler, authorizePrepare, h]
  · intro io s r e h
    simp [userAuthorizeHandler, h]
  · intro io s r e h
    simp [loginHandler, h]
  · intro srv io ioU s r e h1 h2 h3
    rcases h3 with h3 | ⟨f, h3⟩ <;> simp [authorizeHandler, authorizePrepare, h1, h2, h3]
  · intro io s e h1 h2
    have hu : goodLogin.FormValue "username" = "test" := by decide
    have hp : goodLogin.FormValue "password" = "test" := by decide
    simp [loginHandler, h1, h2, hu, hp]
  · decide
  · decide

/-- Counterexample to C5: a session that holds a `ReturnUri` entry, a request the library
rejects with an error: the answer is 400, but the entry is gone from the session. -/
theorem authorize_rejected_drops_ReturnUri :
    pendingSession.Get SessionKeyReturnUri = some (Value.form (some oldForm)) ∧
    handedRequest noFaults pendingSession newRequest =
      some { newRequest with Form := some oldForm } ∧
    rejectingServer.validate (rejectingServer.passes { newRequest with Form := some oldForm }) =
      some (LibResult.failed "invalid_request") ∧
    (authorizeHandler rejectingServer noFaults noFaults pendingSession newRequest).map
        (fun o => (o.written.map (fun w => w.status), o.session.Get SessionKeyReturnUri)) =
      some (some 400, none) := by
  refine ⟨by decide, by decide, rfl, by decide⟩

/-- C5 as amended: when the `/oauth/authorize` handler reaches the library call and
`srv.HandleAuthorizeRequest` returns an error, the handler answers with status 400 and
the error text; the session afterwards holds no `ReturnUri` entry and every key other
than `ReturnUri` and `LoggedInUserID` is unchanged. When validation rejected the request
before the user-authorization step, or the session start of `userAuthorizeHandler`
failed, the session is the session before with `ReturnUri` deleted (identical when it
held none). When the error arises after `userAuthorizeHandler` returned the user ID,
`LoggedInUserID` has been deleted as well. -/
theorem authorize_library_error (srv : Server) (io ioU : Faults) (s : Session)
    (r req : Request) (lib : LibOutcome) (e : String)
    (hreq : handedRequest io s r = some req)
    (hlib : srv.HandleAuthorizeRequest ioU (s.Delete SessionKeyReturnUri) req = some lib)
    (herr : lib.err = some e) :
    ∃ out, authorizeHandler srv io ioU s r = some out ∧
      out.written = some { status := 400, location := none, body := Body.text e } ∧
      out.err = none ∧
      out.session "ReturnUri" = none ∧
      (∀ k, k ≠ "ReturnUri" → k ≠ "LoggedInUserID" → out.session k = s k) ∧
      ((srv.validate (srv.passes req) = some (LibResult.failed e) ∨
          ∃ e1, ioU.start = some e1) →
        out.session = s.Delete SessionKeyReturnUri ∧
        (∀ k, k ≠ "ReturnUri" → out.session k = s k) ∧
        (s "ReturnUri" = none → out.session = s)) ∧
      (srv.validate (srv.passes req) = none → ioU.start = none →
        ∃ u, s "LoggedInUserID" = some (Value.str u) ∧ u ≠ "" ∧
          out.session "LoggedInUserID" = none ∧
          out.session =
            (s.Delete SessionKeyReturnUri).Delete SessionKeyLoggedInUserID) := by
  obtain ⟨_, _, _, _, hprep⟩ := handedRequest_some io s r req hreq
  have hout := authorizeHandler_of_ready srv io ioU s _ r _ _ hprep
  rw [hlib] at hout
  have hcases := HandleAuthorizeRequest_error srv ioU _ req lib e hlib herr
  have hw : (authorizeFinish [Call.start, Call.get SessionKeyReturnUri,
      Call.delete SessionKeyReturnUri, Call.save] lib).written =
      some { status := 400, location := none, body := Body.text e } := by
    simp [authorizeFinish, herr, ctxString, StatusBadRequest]
  have he : (authorizeFinish [Call.start, Call.get SessionKeyReturnUri,
      Call.delete SessionKeyReturnUri, Call.save] lib).err = none := by
    simp [authorizeFinish, herr]
  have hdel : ∀ k, k ≠ "ReturnUri" → (s.Delete SessionKeyReturnUri) k = s k := by
    intro k hk
    simp [Session.Delete, SessionKeyReturnUri, hk]
  have hdel2 : ∀ k, k ≠ "ReturnUri" → k ≠ "LoggedInUserID" →
      ((s.Delete SessionKeyReturnUri).Delete SessionKeyLoggedInUserID) k = s k := by
    intro k hk1 hk2
    simp [Session.Delete, SessionKeyReturnUri, SessionKeyLoggedInUserID, hk1, hk2]
  have hgetL : (s.Delete SessionKeyReturnUri).Get SessionKeyLoggedInUserID =
      s "LoggedInUserID" := by
    simp [Session.Get, Session.Delete, SessionKeyReturnUri, SessionKeyLoggedInUserID]
  refine ⟨_, hout, hw, he, ?_, ?_, ?_, ?_⟩
  · rcases hcases with ⟨_, hs⟩ | ⟨_, _, hs⟩ | ⟨_, _, u, _, _, hs⟩ <;>
      simp [hs, Session.Delete, SessionKeyReturnUri, SessionKeyLoggedInUserID]
  · intro k hk1 hk2
    rcases hcases with ⟨_, hs⟩ | ⟨_, _, hs⟩ | ⟨_, _, u, _, _, hs⟩
    · simpa [hs] using hdel k hk1
    · simpa [hs] using hdel k hk1
    · simpa [hs] using hdel2 k hk1 hk2
  · intro hpre
    have hs : lib.session = s.Delete SessionKeyReturnUri := by
      rcases hcases with ⟨_, hs⟩ | ⟨_, _, hs⟩ | ⟨hv, h0, _⟩
      · exact hs
      · exact hs
      · rcases hpre with hpre | ⟨e1, hpre⟩
        · rw [hv] at hpre; cases hpre
        · rw [h0] at hpre; cases hpre
    refine ⟨by simp [hs], ?_, ?_⟩
    · intro k hk
      simpa [hs] using hdel k hk
    · intro hnone
      simpa [hs] using Session.Delete_absent s SessionKeyReturnUri hnone
  · intro hv h0
    rcases hcases with ⟨hv1, _⟩ | ⟨_, ⟨e1, h1⟩, _⟩ | ⟨_, _, u, hu, hne, hs⟩
    · rw [hv] at hv1; cases hv1
    · rw [h0] at h1; cases h1
    · refine ⟨u, hgetL ▸ hu, hne, ?_, by simp [hs]⟩
      simp [hs, Session.Delete, SessionKeyLoggedInUserID]

/-- Witness of C5 as amended: a request rejected at validation on the session with a
pending form, and a request whose grant fails on the session after login. -/
theorem authorize_library_error_witness :
    handedRequest noFaults pendingSession newRequest =
      some { newRequest with Form := some oldForm } ∧
    handedRequest noFaults loggedInSession newRequest =
      some { newRequest with Form := some oldForm } ∧
    (∃ out, authorizeHandler rejectingServer noFaults noFaults pendingSession newRequest =
        some out ∧
      out.written = some { status := 400, location := none,
                           body := Body.text "invalid_request" } ∧
      out.session "ReturnUri" = none ∧
      out.session = pendingSession.Delete SessionKeyReturnUri) ∧
    loggedInSession "LoggedInUserID" = some (Value.str "test") ∧
    (∃ out, authorizeHandler failingGrantServer noFaults noFaults loggedInSession newRequest =
        some out ∧
      out.written = some { status := 400, location := none,
                           body := Body.text "invalid_client" } ∧
      out.session "ReturnUri" = none ∧
      out.session "LoggedInUserID" = none) := by
  obtain ⟨out1, h1, hw1, _, hr1, _, hpre1, _⟩ :=
    authorize_library_error rejectingServer noFaults noFaults pendingSession newRequest
      { newRequest with Form := some oldForm }
      (LibOutcome.ofResult (pendingSession.Delete SessionKeyReturnUri) none
        (LibResult.failed "invalid_request"))
      "invalid_request" (by decide) rfl rfl
  obtain ⟨out2, h2, hw2, _, hr2, _, _, hpost2⟩ :=
    authorize_library_error failingGrantServer noFaults noFaults loggedInSession newRequest
      { newRequest with Form := some oldForm } _ "invalid_client" (by decide) rfl rfl
  obtain ⟨u, _, _, hl2, _⟩ := hpost2 rfl rfl
  exact ⟨by decide, by decide, ⟨out1, h1, hw1, hr1, (hpre1 (Or.inl rfl)).1⟩, by decide,
    ⟨out2, h2, hw2, hr2, hl2⟩⟩

/-- Counterexample to C2: the session holds no `LoggedInUserID` but the form of an
earlier flow; a fresh request with other parameters reaches the user-authorization
step, is redirected to `/login`, and the `ReturnUri` entry afterwards is the older
form, not the parameters of the inbound request. -/
theorem authorize_keeps_older_ReturnUri :
    pendingSession.Get SessionKeyLoggedInUserID = none ∧
    pendingSession.Get SessionKeyReturnUri = some (Value.form (some oldForm)) ∧
    (authorizeHandler acceptingServer noFaults noFaults pendingSession newRequest).map
        (fun o => (o.user.map (fun u => (u.userID, u.err)), o.written,
          o.session.Get SessionKeyReturnUri)) =
      some (some ("", none),
        some { status := 302, location := some "/login", body := Body.empty },
        some (Value.form (some oldForm))) ∧
    Value.form (some oldForm) ≠ Value.form (some newRequest.params) := by
  refine ⟨by decide, by decide, by decide, by decide⟩

/-- C2 as amended: for a session without `LoggedInUserID` and an inbound
`/oauth/authorize` request that reaches the user-authorization step,
`userAuthorizeHandler` returns an empty user ID with a nil error, the response is a 302
with Location `/login`, and the `ReturnUri` entry after the request is the form the
handler handed to the library: the inbound request's own parameters when the session
held no `ReturnUri` entry, and the older entry again when it held one. -/
theorem authorize_unauthenticated (srv : Server) (io ioU : Faults) (s : Session)
    (r req : Request)
    (hno : s.Get SessionKeyLoggedInUserID = none)
    (hreq : handedRequest io s r = some req)
    (hval : srv.validate (srv.passes req) = none)
    (hstartU : ioU.start = none) :
    ∃ out ua, authorizeHandler srv io ioU s r = some out ∧ out.user = some ua ∧
      ua.userID = "" ∧ ua.err = none ∧
      out.written = some { status := 302, location := some "/login", body := Body.empty } ∧
      out.err = none ∧
      out.session.Get SessionKeyReturnUri = some (Value.form (some req.effectiveForm)) ∧
      (s.Get SessionKeyReturnUri = none →
        out.session.Get SessionKeyReturnUri = some (Value.form (some r.params))) ∧
      (∀ f, s.Get SessionKeyReturnUri = some (Value.form (some f)) →
        out.session.Get SessionKeyReturnUri = some (Value.form (some f))) ∧
      (∀ k, k ≠ SessionKeyReturnUri → out.session.Get k = s.Get k) := by
  obtain ⟨_, _, hret, hshape, hprep⟩ := handedRequest_some io s r req hreq
  have hno1 : (s.Delete SessionKeyReturnUri).Get SessionKeyLoggedInUserID = none := by
    rw [Session.Get_Delete_other _ _ _ keys_ne]; exact hno
  obtain ⟨ua, hua, hid, herr, hw, hsess⟩ :=
    userAuthorizeHandler_unauthenticated ioU (s.Delete SessionKeyReturnUri) (srv.passes req)
      hstartU hno1
  rw [effectiveForm_passes] at hsess
  have hout : authorizeHandler srv io ioU s r =
      some (authorizeFinish [Call.start, Call.get SessionKeyReturnUri,
          Call.delete SessionKeyReturnUri, Call.save]
        { session := ua.session, written := ua.written, err := none, user := some ua }) := by
    simp [authorizeHandler, hprep, Server.HandleAuthorizeRequest, hval, hua, herr, hid]
  have hget : ua.session.Get SessionKeyReturnUri =
      some (Value.form (some req.effectiveForm)) := by
    rw [hsess]; simp
  refine ⟨_, ua, hout, ?_, hid, herr, ?_, ?_, ?_, ?_, ?_, ?_⟩
  · simp [authorizeFinish]
  · simpa [authorizeFinish] using hw
  · simp [authorizeFinish]
  · simpa [authorizeFinish] using hget
  · intro h
    rcases hret with ⟨_, hf⟩ | hret
    · have : req.effectiveForm = r.params := by
        rw [hshape]; simp [Request.effectiveForm, hf]
      simpa [authorizeFinish, this] using hget
    · rw [h] at hret; cases hret
  · intro f h
    rcases hret with ⟨hn, _⟩ | hret
    · rw [h] at hn; cases hn
    · rw [h] at hret
      have hf : req.Form = some f := by
        injection hret with hret; injection hret with hret; exact hret.symm
      have : req.effectiveForm = f := by simp [Request.effectiveForm, hf]
      simpa [authorizeFinish, this] using hget
  · intro k hk
    simp [authorizeFinish, hsess, hk]

/-- Witness of C2 as amended: a fresh request on the empty session. -/
theorem authorize_unauthenticated_witness :
    Session.empty.Get SessionKeyLoggedInUserID = none ∧
    handedRequest noFaults Session.empty newRequest = some { newRequest with Form := none } ∧
    acceptingServer.validate (acceptingServer.passes { newRequest with Form := none }) = none ∧
    noFaults.start = none ∧
    ∃ out ua, authorizeHandler acceptingServer noFaults noFaults Session.empty newRequest =
        some out ∧ out.user = some ua ∧
      ua.userID = "" ∧ ua.err = none ∧
      out.written = some { status := 302, location := some "/login", body := Body.empty } ∧
      out.err = none ∧
      out.session.Get SessionKeyReturnUri =
        some (Value.form (some (Request.effectiveForm { newRequest with Form := none }))) ∧
      (Session.empty.Get SessionKeyReturnUri = none →
        out.session.Get SessionKeyReturnUri = some (Value.form (some newRequest.params))) ∧
      (∀ f, Session.empty.Get SessionKeyReturnUri = some (Value.form (some f)) →
        out.session.Get SessionKeyReturnUri = some (Value.form (some f))) ∧
      (∀ k, k ≠ SessionKeyReturnUri → out.session.Get k = Session.empty.Get k) :=
  ⟨by decide, by decide, rfl, rfl,
   authorize_unauthenticated acceptingServer noFaults noFaults Session.empty newRequest
     { newRequest with Form := none } (by decide) (by decide) rfl rfl⟩

/-- C8: for a session holding `LoggedInUserID = u`, a resumed `/oauth/authorize` request
that reaches the user-authorization step makes `userAuthorizeHandler` return user ID `u`
with a nil error; the request form is the one stored under `ReturnUri`; afterwards the
session holds neither `LoggedInUserID` nor `ReturnUri`, each having been deleted by one
call, and every other key is unchanged; a following `userAuthorizeHandler` call in that
session takes the unauthenticated branch. -/
theorem authorize_resumed (srv : Server) (io ioU : Faults) (s : Session) (r req : Request)
    (u : String)
    (hu : s.Get SessionKeyLoggedInUserID = some (Value.str u))
    (hreq : handedRequest io s r = some req)
    (hval : srv.validate (srv.passes req) = none)
    (hstartU : ioU.start = none) :
    ∃ out ua, authorizeHandler srv io ioU s r = some out ∧ out.user = some ua ∧
      ua.userID = u ∧ ua.err = none ∧
      (∀ f, s.Get SessionKeyReturnUri = some (Value.form f) → req.Form = f) ∧
      out.session.Get SessionKeyLoggedInUserID = none ∧
      out.session.Get SessionKeyReturnUri = none ∧
      (∀ k, k ≠ SessionKeyLoggedInUserID → k ≠ SessionKeyReturnUri →
        out.session.Get k = s.Get k) ∧
      out.calls = [Call.start, Call.get SessionKeyReturnUri, Call.delete SessionKeyReturnUri,
        Call.save, Call.start, Call.get SessionKeyLoggedInUserID,
        Call.delete SessionKeyLoggedInUserID, Call.save] ∧
      (∀ (io2 : Faults) (r2 : Request), io2.start = none →
        ∃ ua2, userAuthorizeHandler io2 out.session r2 = some ua2 ∧ ua2.userID = "" ∧
          ua2.err = none ∧
          ua2.written = some { status := 302, location := some "/login", body := Body.empty }) := by
  obtain ⟨_, _, hret, _, hprep⟩ := handedRequest_some io s r req hreq
  have hu1 : (s.Delete SessionKeyReturnUri).Get SessionKeyLoggedInUserID =
      some (Value.str u) := by
    rw [Session.Get_Delete_other _ _ _ keys_ne]; exact hu
  obtain ⟨ua, hua, hid, herr, _, hsess, hcalls⟩ :=
    userAuthorizeHandler_authenticated ioU (s.Delete SessionKeyReturnUri) (srv.passes req) u
      hstartU hu1
  obtain ⟨lib, hlib, hls, hlu⟩ :=
    HandleAuthorizeRequest_user srv ioU (s.Delete SessionKeyReturnUri) req ua hval hua
  have hout := authorizeHandler_of_ready srv io ioU s _ r _ _ hprep
  rw [hlib] at hout
  have hlogged : ((s.Delete SessionKeyReturnUri).Delete SessionKeyLoggedInUserID).Get
      SessionKeyLoggedInUserID = none := by simp
  refine ⟨_, ua, hout, by simp [hlu], hid, herr, ?_, ?_, ?_, ?_, ?_, ?_⟩
  · intro f hf
    rcases hret with ⟨hn, _⟩ | hret
    · rw [hf] at hn; cases hn
    · rw [hf] at hret
      injection hret with hret; injection hret with hret; exact hret.symm
  · simp [hls, hsess]
  · simp only [authorizeFinish_session, hls, hsess]
    rw [Session.Get_Delete_other _ _ _ keys_ne_symm]; simp
  · intro k hk1 hk2
    simp only [authorizeFinish_session, hls, hsess]
    rw [Session.Get_Delete_other _ _ _ hk1, Session.Get_Delete_other _ _ _ hk2]
  · simp [hlu, hcalls]
  · intro io2 r2 hstart2
    obtain ⟨ua2, h2, hid2, herr2, hw2, _⟩ :=
      userAuthorizeHandler_unauthenticated io2
        ((s.Delete SessionKeyReturnUri).Delete SessionKeyLoggedInUserID) r2 hstart2 hlogged
    exact ⟨ua2, by simpa [hls, hsess] using h2, hid2, herr2, hw2⟩

/-- Witness of C8: the resumed request on the session after login. -/
theorem authorize_resumed_witness :
    loggedInSession.Get SessionKeyLoggedInUserID = some (Value.str "test") ∧
    loggedInSession.Get SessionKeyReturnUri = some (Value.form (some oldForm)) ∧
    handedRequest noFaults loggedInSession newRequest =
      some { newRequest with Form := some oldForm } ∧
    acceptingServer.validate (acceptingServer.passes { newRequest with Form := some oldForm }) =
      none ∧
    noFaults.start = none ∧
    ∃ out ua, authorizeHandler acceptingServer noFaults noFaults loggedInSession newRequest =
        some out ∧ out.user = some ua ∧
      ua.userID = "test" ∧ ua.err = none ∧
      (∀ f, loggedInSession.Get SessionKeyReturnUri = some (Value.form f) →
        (some oldForm : Option Values) = f) ∧
      out.session.Get SessionKeyLoggedInUserID = none ∧
      out.session.Get SessionKeyReturnUri = none ∧
      (∀ k, k ≠ SessionKeyLoggedInUserID → k ≠ SessionKeyReturnUri →
        out.session.Get k = loggedInSession.Get k) ∧
      out.calls = [Call.start, Call.get SessionKeyReturnUri, Call.delete SessionKeyReturnUri,
        Call.save, Call.start, Call.get SessionKeyLoggedInUserID,
        Call.delete SessionKeyLoggedInUserID, Call.save] ∧
      (∀ (io2 : Faults) (r2 : Request), io2.start = none →
        ∃ ua2, userAuthorizeHandler io2 out.session r2 = some ua2 ∧ ua2.userID = "" ∧
          ua2.err = none ∧
          ua2.written = some { status := 302, location := some "/login", body := Body.empty }) :=
  ⟨by decide, by decide, by decide, rfl, rfl,
   authorize_resumed acceptingServer noFaults noFaults loggedInSession newRequest
     { newRequest with Form := some oldForm } "test" (by decide) (by decide) rfl rfl⟩

/-- C1: a request `r1` handled by `userAuthorizeHandler` in a session without
`LoggedInUserID` leaves its form under `ReturnUri`; for every later session state with
that same `ReturnUri` entry (a login submission leaves the entry as it is) and every
later `/oauth/authorize` request `r2`, the request handed to
`srv.HandleAuthorizeRequest` carries exactly the form of `r1`, whatever `r2` carries. -/
theorem authorize_restores_stored_form (io1 : Faults) (s : Session) (r1 : Request)
    (hno : s.Get SessionKeyLoggedInUserID = none) (hstart1 : io1.start = none) :
    ∃ ua, userAuthorizeHandler io1 s r1 = some ua ∧
      ua.session.Get SessionKeyReturnUri = some (Value.form (some r1.effectiveForm)) ∧
      (∀ (s2 : Session) (io : Faults) (r2 : Request),
        s2.Get SessionKeyReturnUri = ua.session.Get SessionKeyReturnUri →
        io.start = none → io.save = none →
        handedRequest io s2 r2 = some { r2 with Form := some r1.effectiveForm } ∧
        ∀ (srv : Server) (ioU : Faults), authorizeHandler srv io ioU s2 r2 =
          (srv.HandleAuthorizeRequest ioU (s2.Delete SessionKeyReturnUri)
            { r2 with Form := some r1.effectiveForm }).map
            (authorizeFinish [Call.start, Call.get SessionKeyReturnUri,
              Call.delete SessionKeyReturnUri, Call.save])) ∧
      (∀ (ioL : Faults) (rl : Request),
        (loginHandler ioL ua.session rl).session.Get SessionKeyReturnUri =
          ua.session.Get SessionKeyReturnUri) := by
  obtain ⟨ua, hua, _, _, _, hsess⟩ := userAuthorizeHandler_unauthenticated io1 s r1 hstart1 hno
  have hget : ua.session.Get SessionKeyReturnUri =
      some (Value.form (some r1.effectiveForm)) := by
    rw [hsess]; simp
  refine ⟨ua, hua, hget, ?_, ?_⟩
  · intro s2 io r2 hsame hstart hsave
    have hprep := authorizePrepare_ready io s2 r2 hstart hsave (some r1.effectiveForm)
      (Or.inr (hsame.trans hget))
    refine ⟨by simp [handedRequest, hprep], ?_⟩
    intro srv ioU
    exact authorizeHandler_of_ready srv io ioU s2 _ r2 _ _ hprep
  · intro ioL rl
    unfold loginHandler
    cases ioL.start with
    | some e => rfl
    | none =>
      by_cases hc : rl.FormValue "username" = "test" ∧ rl.FormValue "password" = "test"
      · cases hsave : ioL.save <;>
          simp [hc, hsave, Session.Get_Set_other _ _ _ _ keys_ne_symm]
      · simp [hc]

/-- Witness of C1: the earlier request on the empty session, then a login, then a
request with other parameters. -/
theorem authorize_restores_stored_form_witness :
    Session.empty.Get SessionKeyLoggedInUserID = none ∧ noFaults.start = none ∧
    oldRequest.effectiveForm = oldForm ∧
    ∃ ua, userAuthorizeHandler noFaults Session.empty oldRequest = some ua ∧
      ua.session.Get SessionKeyReturnUri = some (Value.form (some oldRequest.effectiveForm)) ∧
      (∀ (s2 : Session) (io : Faults) (r2 : Request),
        s2.Get SessionKeyReturnUri = ua.session.Get SessionKeyReturnUri →
        io.start = none → io.save = none →
        handedRequest io s2 r2 = some { r2 with Form := some oldRequest.effectiveForm } ∧
        ∀ (srv : Server) (ioU : Faults), authorizeHandler srv io ioU s2 r2 =
          (srv.HandleAuthorizeRequest ioU (s2.Delete SessionKeyReturnUri)
            { r2 with Form := some oldRequest.effectiveForm }).map
            (authorizeFinish [Call.start, Call.get SessionKeyReturnUri,
              Call.delete SessionKeyReturnUri, Call.save])) ∧
      (∀ (ioL : Faults) (rl : Request),
        (loginHandler ioL ua.session rl).session.Get SessionKeyReturnUri =
          ua.session.Get SessionKeyReturnUri) :=
  ⟨by decide, rfl, rfl,
   authorize_restores_stored_form noFaults Session.empty oldRequest (by decide) rfl⟩

/-- C10: every sequence of calls to the `/oauth/authorize` handler, `userAuthorizeHandler`,
`loginHandler` and `authHandler`, started on the empty session, runs without a panic; the
session it reaches holds under `ReturnUri`, if anything, a `url.Values` and under
`LoggedInUserID`, if anything, the string `test`; from such a session no further call
panics, and the `/oauth/authorize` handler on a session without `ReturnUri` hands
the library a request with a nil form instead of asserting a type. -/
theorem reachable_sessions_wellTyped (acts : List Action) :
    ∃ s, run Session.empty acts = some s ∧
      (∀ v, s.Get SessionKeyReturnUri = some v → ∃ f, v = Value.form f) ∧
      (∀ v, s.Get SessionKeyLoggedInUserID = some v → v = Value.str "test") ∧
      (∀ a : Action, (step s a).isSome = true) ∧
      (∀ (srv : Server) (io ioU : Faults) (r : Request),
        (authorizeHandler srv io ioU s r).isSome = true) ∧
      (∀ (io : Faults) (r : Request), (userAuthorizeHandler io s r).isSome = true) ∧
      (∀ (io : Faults) (r : Request), s.Get SessionKeyReturnUri = none →
        io.start = none → io.save = none →
        handedRequest io s r = some { r with Form := none }) := by
  obtain ⟨s, hrun, hwt⟩ := run_wellTyped acts Session.empty WellTyped.empty
  refine ⟨s, hrun, hwt.1, hwt.2, ?_, ?_, ?_, ?_⟩
  · intro a
    obtain ⟨s1, h1, _⟩ := step_wellTyped s a hwt
    simp [h1]
  · intro srv io ioU r
    obtain ⟨out, h1, _⟩ := authorizeHandler_wellTyped srv io ioU s r hwt
    simp [h1]
  · intro io r
    obtain ⟨ua, h1, _⟩ := userAuthorizeHandler_wellTyped io s r hwt
    simp [h1]
  · intro io r hnone hstart hsave
    have hprep := authorizePrepare_ready io s r hstart hsave none (Or.inl ⟨hnone, rfl⟩)
    simp [handedRequest, hprep]

/-- C9: `GenerateClientSecret(length)` returns the empty string and an error for every
`length <= 0`; for every `length >= 1` for which the random source succeeds (the buffer
was allocated and `rand.Read` returned no error) it returns a nil error and the padded
URL-safe base64 encoding of the `length` bytes read, as RFC 4648 defines it: a string of
`4 * ceil(length / 3)` characters (44 for length 32, 88 for length 64), each of them a
letter, a digit, `-`, `_` or the padding `=`, and none of them `+` or `/`. The source
succeeds for every stream and every length the run-time system can allocate; beyond
that `make` panics and nothing is returned. -/
theorem GenerateClientSecret_spec :
    (∀ (maxAlloc : Nat) (rand : Except String (Nat → Nat)) (length : GoInt),
      length.val ≤ 0 →
      GenerateClientSecret maxAlloc rand length = some ("", some "length must be positive")) ∧
    (∀ (maxAlloc : Nat) (rand : Except String (Nat → Nat)) (length : GoInt)
      (bytes : List Nat), 1 ≤ length.val →
      readRandom maxAlloc rand length = some (Except.ok bytes) →
      ∃ secret, GenerateClientSecret maxAlloc rand length = some (secret, none) ∧
        (bytes.length : Int) = length.val ∧ (∀ b ∈ bytes, b < 256) ∧
        secret.toList = base64urlSpec bytes ∧
        secret.length = 4 * ⌈(length.val : ℚ) / 3⌉₊ ∧
        (length.val = 32 → secret.length = 44) ∧
        (length.val = 64 → secret.length = 88) ∧
        ∀ c ∈ secret.toList,
          (('A' ≤ c ∧ c ≤ 'Z') ∨ ('a' ≤ c ∧ c ≤ 'z') ∨ ('0' ≤ c ∧ c ≤ '9') ∨ c = '-' ∨
            c = '_' ∨ c = '=') ∧ c ≠ '+' ∧ c ≠ '/') ∧
    (∀ (maxAlloc : Nat) (stream : Nat → Nat) (length : GoInt),
      1 ≤ length.val → length.val ≤ (maxAlloc : Int) →
      ∃ bytes, readRandom maxAlloc (Except.ok stream) length = some (Except.ok bytes) ∧
        bytes = (List.range length.val.toNat).map (fun i => stream i % 256)) ∧
    (∀ (maxAlloc : Nat) (rand : Except String (Nat → Nat)) (length : GoInt),
      (maxAlloc : Int) < length.val →
      GenerateClientSecret maxAlloc rand length = none) ∧
    GenerateClientSecret 1024 (Except.ok foobarStream) length6 = some ("Zm9vYmFy", none) ∧
    GenerateClientSecret 1024 (Except.ok highStream) length2 = some ("-_8=", none) ∧
    GenerateClientSecret 1024 (Except.ok foobarStream) length0 =
      some ("", some "length must be positive") ∧
    GenerateClientSecret 281474976710656 (Except.ok foobarStream) lengthHuge = none ∧
    (GenerateClientSecret 1024 (Except.ok foobarStream) length32).map
      (fun out => (out.1.length, out.2)) = some (44, none) := by
  refine ⟨?_, ?_, ?_, ?_, ?_, ?_, ?_, ?_, ?_⟩
  · intro maxAlloc rand length h
    simp [GenerateClientSecret, h]
  · intro maxAlloc rand length bytes h hread
    have hpos : ¬ length.val ≤ 0 := by omega
    obtain ⟨_, stream, _, hbytes⟩ := readRandom_ok maxAlloc rand length bytes hread
    have hlt : ∀ b ∈ bytes, b < 256 := hbytes ▸ randomBytes_lt stream length.val
    have hlen : bytes.length = length.val.toNat := by
      rw [hbytes]; exact randomBytes_length stream length.val
    have hnat : ((length.val.toNat : ℕ) : Int) = length.val :=
      Int.toNat_of_nonneg (by omega)
    have hq : ((length.val.toNat : ℕ) : ℚ) = (length.val : ℚ) := by exact_mod_cast hnat
    have hslen : (EncodeToString bytes).length = 4 * ((length.val.toNat + 2) / 3) := by
      simp only [EncodeToString, String.length, encode_length, hlen]
    refine ⟨EncodeToString bytes, by simp [GenerateClientSecret, hpos, hread], ?_, hlt, ?_,
      ?_, ?_, ?_, ?_⟩
    · rw [hlen]; exact hnat
    · simp only [EncodeToString]
      exact encode_eq_spec bytes hlt
    · rw [hslen, ← hq, ceil_div_three]
    · intro h32
      have : length.val.toNat = 32 := by omega
      rw [hslen, this]
    · intro h64
      have : length.val.toNat = 64 := by omega
      rw [hslen, this]
    · intro c hc
      have hc2 : c ∈ encode bytes := by simpa [EncodeToString] using hc
      have hs := encode_urlSafe _ c hc2
      exact ⟨hs, urlSafeChar_ne_plus_slash c hs⟩
  · intro maxAlloc stream length h1 h2
    have hm : ¬ maxAlloc < length.val.toNat := by omega
    exact ⟨randomBytes stream length.val, by simp [readRandom, hm], rfl⟩
  · intro maxAlloc rand length h
    have hpos : ¬ length.val ≤ 0 := by omega
    have hm : maxAlloc < length.val.toNat := by omega
    simp [GenerateClientSecret, hpos, readRandom, hm]
  · decide
  · decide
  · decide
  · decide
  · decide

end OAuth2
